import Mathlib

/-!
Verification of the Google Keep MCP server (src/server/cli.py) against its
natural-language specification.

The file shallowly embeds the tool handlers of cli.py together with the parts
of the external notes client they consume.  Handlers whose Python bodies carry
a try/except wrapper are total functions returning a JSON value; handlers
without a wrapper return an Except value whose error constructor models a
raised ValueError or a propagated upstream exception.
-/

namespace KeepMcp

/-- A JSON value, the shape of every handler response. -/
inductive JVal where
  | null : JVal
  | str : String → JVal
  | bool : Bool → JVal
  | num : Int → JVal
  | arr : List JVal → JVal
  | obj : List (String × JVal) → JVal

/-- A single checklist item of the external client: identifier, text, checked
flag, numeric sort key, optional parent item reference (set by indent), and a
soft-deletion flag. -/
structure ListItem where
  id : String
  text : String
  checked : Bool
  sort : Int
  parentId : Option String
  deleted : Bool
deriving DecidableEq

/-- A note of the external client: plain note or checklist, with the fields the
serialization contract exposes plus archived/trashed/deleted state flags. -/
structure Note where
  id : String
  title : String
  text : String
  pinned : Bool
  color : String
  labels : List String
  archived : Bool
  trashed : Bool
  isList : Bool
  items : List ListItem
  deleted : Bool
deriving DecidableEq

/-- The state of the external notes client handle returned by get_client,
together with the process-wide unsafe-mode flag read by the safety policy.
syncError models an upstream failure that the next synchronization call will
raise; syncCount counts successful synchronization calls; nextId feeds the
generation of fresh opaque ids. -/
structure Keep where
  notes : List Note
  labelNames : List String
  unsafeMode : Bool
  syncError : Option String
  syncCount : Nat
  nextId : Nat
deriving DecidableEq

/-- The sentinel label marking notes this system may mutate. -/
def sentinel : String := "keep-mcp"

/-- Modelled from the spec: keep_api.can_modify_note (section 4.1, missing from
src/).  True iff the note carries the sentinel label or unsafe mode is on.
The process-wide unsafe-mode flag is passed explicitly. -/
def can_modify_note (unsafeMode : Bool) (note : Note) : Bool :=
  unsafeMode || note.labels.contains sentinel

/-- Serialize an optional string as a JSON string or null. -/
def optStr : Option String → JVal
  | some s => JVal.str s
  | none => JVal.null

/-- Modelled from the spec: the per-item record of keep_api.serialize_note
(section 4.2, missing from src/): item id, text, checked flag, and the id of
the parent item if indented, null otherwise. -/
def serialize_item (it : ListItem) : JVal :=
  JVal.obj [("id", JVal.str it.id), ("text", JVal.str it.text),
            ("checked", JVal.bool it.checked),
            ("super_list_item_id", optStr it.parentId)]

/-- Modelled from the spec: keep_api.serialize_note (section 4.2, missing from
src/): id, title, text, pinned flag, color and label names, plus the item
records when the note is a checklist.  Items are emitted in the stored order of
the checklist, which for lists built by these handlers coincides with the
descending-sort-key order the spec describes. -/
def serialize_note (n : Note) : JVal :=
  JVal.obj ([("id", JVal.str n.id), ("title", JVal.str n.title),
             ("text", JVal.str n.text), ("pinned", JVal.bool n.pinned),
             ("color", JVal.str n.color),
             ("labels", JVal.arr (n.labels.map JVal.str))]
            ++ (if n.isList then
                  [("items", JVal.arr (n.items.map serialize_item))]
                else []))

/-- The uniform JSON error envelope: an object with a single error field. -/
def errorEnvelope (msg : String) : JVal :=
  JVal.obj [("error", JVal.str msg)]

/-- The message built by the except blocks of find, create_note and
create_list.  The Python message appends a formatted traceback, which is not
modelled. -/
def errTag (handler e : String) : String :=
  "Error in " ++ handler ++ ": " ++ e

/-- External client lookup over the note graph: first note with the given id,
as keep.get returns the node registered under an id. -/
def goFind : List Note → String → Option Note
  | [], _ => none
  | n :: rest, i => if n.id = i then some n else goFind rest i

/-- External client operation keep.get, per the interface in the spec. -/
def keepGet (st : Keep) (id : String) : Option Note :=
  goFind st.notes id

/-- Modelled from the spec: the query matching of the external client find
operation (a query matches when it occurs in the title or in the text). -/
def matchesQuery (q : String) (n : Note) : Bool :=
  if q = "" then true
  else (n.title.splitOn q).length != 1 || (n.text.splitOn q).length != 1

/-- External client operation keep.find(query, archived, trashed): the notes
matching the query whose archived and trashed flags equal the given ones. -/
def keepFind (st : Keep) (q : String) (archived trashed : Bool) : List Note :=
  st.notes.filter
    (fun n => matchesQuery q n && n.archived == archived && n.trashed == trashed)

/-- External client operation keep.sync: commits pending mutations; raises the
pending upstream failure when one is set. -/
def keepSync (st : Keep) : Except String Keep :=
  match st.syncError with
  | some e => Except.error e
  | none => Except.ok { st with syncCount := st.syncCount + 1 }

/-- In-place mutation of the note object obtained from keep.get: the first note
with a matching id is replaced by the updated note. -/
def setNote : List Note → Note → List Note
  | [], _ => []
  | n :: rest, n2 => if n.id = n2.id then n2 :: rest else n :: setNote rest n2

/-- Write an updated note back into the client state, replacing the first note
carrying the same id. -/
def keepPut (st : Keep) (n2 : Note) : Keep :=
  { st with notes := setNote st.notes n2 }

/-- keep.findLabel / keep.createLabel sequence of the handlers: make sure the
sentinel label exists on the account. -/
def ensureLabel (st : Keep) : Keep :=
  if st.labelNames.contains sentinel then st
  else { st with labelNames := st.labelNames ++ [sentinel] }

/-- Fresh opaque note id for the nth created note.  The external client
generates opaque unique ids; they are modelled by an injective function of the
creation counter. -/
def mkNoteId (k : Nat) : String := String.mk (List.replicate (k + 1) 'n')

/-- Fresh opaque item id for the nth created list item, injective in the
counter like mkNoteId. -/
def mkItemId (k : Nat) : String := String.mk (List.replicate (k + 1) 'i')

/-- One entry of the raw items argument of create_list: either a dict with the
keys text, checked, id and super_list_item_id (each possibly absent), or a
non-dict entry, modelled by the string form Python would take of it. -/
inductive RawItem where
  | dict (text : Option String) (checked : Option Bool) (id : Option String)
      (super_list_item_id : Option String) : RawItem
  | str (s : String) : RawItem
deriving DecidableEq

/-- Default RawItem used by positional getD lookups. -/
def defaultRaw : RawItem := RawItem.str ""

/-- Default ListItem used by positional getD lookups. -/
def defaultItem : ListItem :=
  { id := "", text := "", checked := false, sort := 0, parentId := none,
    deleted := false }

/-- Python truthiness of an optional string value taken from a dict: an absent
key and an empty string are both falsy. -/
def truthy : Option String → Option String
  | some s => if s = "" then none else some s
  | none => none

/-- The item text of a descriptor: dict key text defaulting to the empty
string, or the string form of a non-dict entry. -/
def descText : RawItem → String
  | RawItem.dict t _ _ _ => t.getD ""
  | RawItem.str s => s

/-- The checked flag of a descriptor: dict key checked defaulting to false;
false for a non-dict entry. -/
def descChecked : RawItem → Bool
  | RawItem.dict _ c _ _ => c.getD false
  | RawItem.str _ => false

/-- The correlation id of a descriptor: the dict key id when truthy.  Only dict
descriptors with a truthy id enter the id-to-index lookup. -/
def descCorrId : RawItem → Option String
  | RawItem.dict _ _ i _ => truthy i
  | RawItem.str _ => none

/-- The parent correlation id of a descriptor: the dict key super_list_item_id
when truthy. -/
def descSuperId : RawItem → Option String
  | RawItem.dict _ _ _ p => truthy p
  | RawItem.str _ => none

/-- SORT_DELTA of the external client list type: the fixed positive step
between sort keys of consecutively appended items. -/
def SORT_DELTA : Int := 10000

/-- Pass 1 of create_list: iterate the descriptors in input order, creating for
each a top-level item with the running sort key, then decrement the key by
SORT_DELTA.  The counter i numbers the created items for id generation. -/
def pass1Aux : List RawItem → Nat → Int → List ListItem
  | [], _, _ => []
  | d :: rest, i, sortv =>
    { id := mkItemId i, text := descText d, checked := descChecked d,
      sort := sortv, parentId := none, deleted := false }
      :: pass1Aux rest (i + 1) (sortv - SORT_DELTA)

/-- The id_to_index dict of create_list, as a lookup function: Python builds it
by assigning id_to_index of the item id at each index in ascending order, so a
duplicated correlation id ends up mapped to its last occurrence. -/
def idToIndexAux : List RawItem → Nat → String → Option Nat
  | [], _, _ => none
  | d :: rest, i, s =>
    match idToIndexAux rest (i + 1) s with
    | some j => some j
    | none => if descCorrId d = some s then some i else none

/-- Lookup of a correlation id in the id_to_index dict built over the whole
batch. -/
def idToIndex (items : List RawItem) (s : String) : Option Nat :=
  idToIndexAux items 0 s

/-- The external client operation parent_item.indent(child_item), per the
interface in the spec: the child item (identified by cid) gets its parent
reference set to the parent item id. -/
def applyIndent : List ListItem → String → String → List ListItem
  | [], _, _ => []
  | it :: rest, pid, cid =>
    (if it.id = cid then { it with parentId := some pid } else it)
      :: applyIndent rest pid cid

/-- One iteration of pass 2 of create_list for the descriptor at index i: when
the descriptor carries a truthy parent correlation id that the lookup resolves,
indent the item created at index i under the item created at the resolved
index; otherwise leave the items unchanged.  The item_mapping lookups of the
Python code always succeed because the mapping holds every batch index. -/
def pass2Step (items : List RawItem) (acc : List ListItem) (i : Nat)
    (d : RawItem) : List ListItem :=
  match descSuperId d with
  | none => acc
  | some sid =>
    match idToIndex items sid with
    | none => acc
    | some p => applyIndent acc (mkItemId p) (mkItemId i)

/-- Pass 2 of create_list: iterate the descriptors with their indices, applying
pass2Step to the accumulated items. -/
def pass2Go (items : List RawItem) : Nat → List RawItem → List ListItem
    → List ListItem
  | _, [], acc => acc
  | i, d :: rest, acc => pass2Go items (i + 1) rest (pass2Step items acc i d)

/-- The items of a list built by a single create_list call: pass 1 creates the
items with strictly decreasing sort keys from the random base, pass 2 restores
the parent/child indentation hints. -/
def build_list_items (items : List RawItem) (base : Int) : List ListItem :=
  pass2Go items 0 items (pass1Aux items 0 base)

/-- The index the parent correlation id of a descriptor resolves to, when it
does: the last occurrence of that id in the batch. -/
def resolveTo (items : List RawItem) (d : RawItem) : Option Nat :=
  (descSuperId d).bind (fun sid => idToIndex items sid)

/-- The ValueError message of update_note and delete_note for a missing id. -/
def msgNoteNotFound (nid : String) : String :=
  "Note with ID " ++ nid ++ " not found"

/-- The ValueError message of update_note and delete_note when the safety
policy denies the mutation. -/
def msgNoteForbidden (nid : String) : String :=
  "Note with ID " ++ nid
    ++ " cannot be modified (missing keep-mcp label and UNSAFE_MODE is not enabled)"

/-- The ValueError message of the list-item handlers for a missing list id. -/
def msgListNotFound (lid : String) : String :=
  "List with ID " ++ lid ++ " not found"

/-- The ValueError message of the list-item handlers when the node is not a
checklist. -/
def msgNotAList (lid : String) : String :=
  "Node with ID " ++ lid ++ " is not a list"

/-- The ValueError message of the list-item handlers when the safety policy
denies the mutation. -/
def msgListForbidden (lid : String) : String :=
  "List with ID " ++ lid
    ++ " cannot be modified (missing keep-mcp label and UNSAFE_MODE is not enabled)"

/-- The ValueError message of update_list_item and delete_list_item for an
item id absent from the list. -/
def msgItemNotFound (iid lid : String) : String :=
  "Item with ID " ++ iid ++ " not found in list " ++ lid

/-- The find tool: search non-archived, non-trashed notes and serialize them.
Its try/except wrapper never fires here because the search and the
serialization are total. -/
def find (st : Keep) (query : String) : JVal :=
  JVal.arr ((keepFind st query false false).map serialize_note)

/-- The create_note tool: create a note, tag it with the sentinel label
(creating the label when absent), synchronize, and serialize; any failure is
converted to the error envelope by the except block. -/
def create_note (st : Keep) (title text : Option String) : Keep × JVal :=
  let note : Note :=
    { id := mkNoteId st.nextId, title := title.getD "", text := text.getD "",
      pinned := false, color := "DEFAULT", labels := [sentinel],
      archived := false, trashed := false, isList := false, items := [],
      deleted := false }
  let st1 := ensureLabel
    { st with nextId := st.nextId + 1, notes := st.notes ++ [note] }
  match keepSync st1 with
  | Except.ok st2 => (st2, serialize_note note)
  | Except.error e => (st1, errorEnvelope (errTag "create_note" e))

/-- The update_note tool: look the note up, check the safety policy, assign the
fields that were explicitly supplied, synchronize and serialize.  There is no
except block: failures are raised ValueErrors or propagated upstream
exceptions, modelled by the error constructor. -/
def update_note (st : Keep) (note_id : String) (title text : Option String) :
    Keep × Except String JVal :=
  match keepGet st note_id with
  | none => (st, Except.error (msgNoteNotFound note_id))
  | some note =>
    if can_modify_note st.unsafeMode note then
      let note2 := { note with title := title.getD note.title,
                               text := text.getD note.text }
      let st2 := keepPut st note2
      match keepSync st2 with
      | Except.ok st3 => (st3, Except.ok (serialize_note note2))
      | Except.error e => (st2, Except.error e)
    else (st, Except.error (msgNoteForbidden note_id))

/-- The delete_note tool: look the note up, check the safety policy, mark it
for deletion, synchronize.  No except block. -/
def delete_note (st : Keep) (note_id : String) : Keep × Except String JVal :=
  match keepGet st note_id with
  | none => (st, Except.error (msgNoteNotFound note_id))
  | some note =>
    if can_modify_note st.unsafeMode note then
      let st2 := keepPut st { note with deleted := true }
      match keepSync st2 with
      | Except.ok st3 =>
        (st3, Except.ok (JVal.obj
          [("message",
            JVal.str ("Note " ++ note_id ++ " marked for deletion"))]))
      | Except.error e => (st2, Except.error e)
    else (st, Except.error (msgNoteForbidden note_id))

/-- The create_list tool: create a checklist tagged with the sentinel label,
build its items with the two-pass hierarchy procedure, synchronize and
serialize; any failure is converted to the error envelope by the except
block. -/
def create_list (st : Keep) (title : Option String) (items : List RawItem)
    (base : Int) : Keep × JVal :=
  let note : Note :=
    { id := mkNoteId st.nextId, title := title.getD "", text := "",
      pinned := false, color := "DEFAULT", labels := [sentinel],
      archived := false, trashed := false, isList := true,
      items := build_list_items items base, deleted := false }
  let st1 := ensureLabel
    { st with nextId := st.nextId + 1, notes := st.notes ++ [note] }
  match keepSync st1 with
  | Except.ok st2 => (st2, serialize_note note)
  | Except.error e => (st1, errorEnvelope (errTag "create_list" e))

/-- The add_list_item tool: look the list up, check its kind and the safety
policy, append an item, synchronize and serialize.  No except block.  The
external client assigns a default sort key when none is passed; that default is
modelled as 0. -/
def add_list_item (st : Keep) (list_id text : String) (checked : Bool) :
    Keep × Except String JVal :=
  match keepGet st list_id with
  | none => (st, Except.error (msgListNotFound list_id))
  | some note =>
    if note.isList = false then (st, Except.error (msgNotAList list_id))
    else if can_modify_note st.unsafeMode note then
      let item : ListItem :=
        { id := mkItemId st.nextId, text := text, checked := checked,
          sort := 0, parentId := none, deleted := false }
      let note2 := { note with items := note.items ++ [item] }
      let st2 := keepPut { st with nextId := st.nextId + 1 } note2
      match keepSync st2 with
      | Except.ok st3 => (st3, Except.ok (serialize_note note2))
      | Except.error e => (st2, Except.error e)
    else (st, Except.error (msgListForbidden list_id))

/-- The item-search loop of update_list_item and delete_list_item: the first
item of the list carrying the given id. -/
def findItem : List ListItem → String → Option ListItem
  | [], _ => none
  | it :: rest, iid => if it.id = iid then some it else findItem rest iid

/-- In-place mutation of the item object found by the search loop: apply f to
the first item carrying the given id. -/
def updFirstItem : List ListItem → String → (ListItem → ListItem)
    → List ListItem
  | [], _, _ => []
  | it :: rest, iid, f =>
    if it.id = iid then f it :: rest else it :: updFirstItem rest iid f

/-- The two conditional field assignments of update_list_item on the found
item object: a field left as None is not written. -/
def applyItemUpd (text : Option String) (checked : Option Bool)
    (it : ListItem) : ListItem :=
  { it with text := text.getD it.text, checked := checked.getD it.checked }

/-- The item.delete() call of delete_list_item: mark the item for deletion. -/
def markItemDeleted (it : ListItem) : ListItem :=
  { it with deleted := true }

/-- The update_list_item tool: look the list up, check its kind and the safety
policy, find the item, assign the fields that were explicitly supplied,
synchronize and serialize.  No except block. -/
def update_list_item (st : Keep) (list_id item_id : String)
    (text : Option String) (checked : Option Bool) :
    Keep × Except String JVal :=
  match keepGet st list_id with
  | none => (st, Except.error (msgListNotFound list_id))
  | some note =>
    if note.isList = false then (st, Except.error (msgNotAList list_id))
    else if can_modify_note st.unsafeMode note then
      match findItem note.items item_id with
      | none => (st, Except.error (msgItemNotFound item_id list_id))
      | some _ =>
        let items2 := updFirstItem note.items item_id (applyItemUpd text checked)
        let note2 := { note with items := items2 }
        let st2 := keepPut st note2
        match keepSync st2 with
        | Except.ok st3 => (st3, Except.ok (serialize_note note2))
        | Except.error e => (st2, Except.error e)
    else (st, Except.error (msgListForbidden list_id))

/-- The delete_list_item tool: look the list up, check its kind and the safety
policy, find the item, mark it for deletion, synchronize and serialize.  No
except block. -/
def delete_list_item (st : Keep) (list_id item_id : String) :
    Keep × Except String JVal :=
  match keepGet st list_id with
  | none => (st, Except.error (msgListNotFound list_id))
  | some note =>
    if note.isList = false then (st, Except.error (msgNotAList list_id))
    else if can_modify_note st.unsafeMode note then
      match findItem note.items item_id with
      | none => (st, Except.error (msgItemNotFound item_id list_id))
      | some _ =>
        let items2 := updFirstItem note.items item_id markItemDeleted
        let note2 := { note with items := items2 }
        let st2 := keepPut st note2
        match keepSync st2 with
        | Except.ok st3 => (st3, Except.ok (serialize_note note2))
        | Except.error e => (st2, Except.error e)
    else (st, Except.error (msgListForbidden list_id))

/-! ## Positional lookup helpers -/

theorem getD_zero {α : Type} (a : α) (l : List α) (d : α) :
    (a :: l).getD 0 d = a := rfl

theorem getD_succ {α : Type} (a : α) (l : List α) (n : Nat) (d : α) :
    (a :: l).getD (n + 1) d = l.getD n d := rfl

theorem getD_mem {α : Type} (l : List α) (d : α) :
    ∀ j, j < l.length → l.getD j d ∈ l := by
  induction l with
  | nil => intro j hj; simp at hj
  | cons a t ih =>
    intro j hj
    cases j with
    | zero => simp [getD_zero]
    | succ j =>
      rw [getD_succ]
      exact List.mem_cons_of_mem a (ih j (by simpa using hj))

theorem drop_cons_facts {α : Type} (dflt : α) :
    ∀ (l : List α) (k : Nat) (d : α) (rest : List α),
    l.drop k = d :: rest →
    k < l.length ∧ l.getD k dflt = d ∧ l.drop (k + 1) = rest := by
  intro l
  induction l with
  | nil => intro k d rest h; simp at h
  | cons a t ih =>
    intro k d rest h
    cases k with
    | zero =>
      simp only [List.drop_zero] at h
      cases h
      exact ⟨by simp, rfl, by simp⟩
    | succ k =>
      have h' : t.drop k = d :: rest := by simpa using h
      obtain ⟨h1, h2, h3⟩ := ih k d rest h'
      refine ⟨by simpa using Nat.succ_lt_succ h1, by simpa [getD_succ] using h2,
        by simpa using h3⟩

theorem mkItemId_inj {a b : Nat} (h : mkItemId a = mkItemId b) : a = b := by
  have hl := congrArg String.length h
  simp only [mkItemId, String.length, List.length_replicate] at hl
  omega

/-! ## Pass 1: item creation with decreasing sort keys -/

theorem pass1Aux_length : ∀ (l : List RawItem) (i : Nat) (s : Int),
    (pass1Aux l i s).length = l.length := by
  intro l
  induction l with
  | nil => intro i s; rfl
  | cons d rest ih => intro i s; simp [pass1Aux, ih]

theorem pass1Aux_getD : ∀ (l : List RawItem) (i : Nat) (s : Int) (t : Nat),
    t < l.length →
    (pass1Aux l i s).getD t defaultItem =
      { id := mkItemId (i + t), text := descText (l.getD t defaultRaw),
        checked := descChecked (l.getD t defaultRaw),
        sort := s - SORT_DELTA * (t : Int), parentId := none,
        deleted := false } := by
  intro l
  induction l with
  | nil => intro i s t ht; simp at ht
  | cons d rest ih =>
    intro i s t ht
    cases t with
    | zero => simp [pass1Aux, getD_zero]
    | succ t =>
      have h := ih (i + 1) (s - SORT_DELTA) t (by simpa using ht)
      simp only [pass1Aux, getD_succ, h, ListItem.mk.injEq, and_true, true_and]
      constructor
      · have : i + 1 + t = i + (t + 1) := by omega
        rw [this]
      · push_cast
        ring

/-! ## The id_to_index lookup -/

theorem idToIndexAux_none : ∀ (l : List RawItem) (i : Nat) (s : String),
    (∀ t, t < l.length → descCorrId (l.getD t defaultRaw) ≠ some s) →
    idToIndexAux l i s = none := by
  intro l
  induction l with
  | nil => intro i s _; rfl
  | cons d rest ih =>
    intro i s h
    have hr : idToIndexAux rest (i + 1) s = none := by
      refine ih (i + 1) s (fun t ht => ?_)
      have := h (t + 1) (by simpa using Nat.succ_lt_succ ht)
      simpa [getD_succ] using this
    have h0 := h 0 (by simp)
    rw [getD_zero] at h0
    simp [idToIndexAux, hr, h0]

theorem idToIndexAux_last : ∀ (l : List RawItem) (i k : Nat) (s : String),
    k < l.length → descCorrId (l.getD k defaultRaw) = some s →
    (∀ t, k < t → t < l.length → descCorrId (l.getD t defaultRaw) ≠ some s) →
    idToIndexAux l i s = some (i + k) := by
  intro l
  induction l with
  | nil => intro i k s hk; simp at hk
  | cons d rest ih =>
    intro i k s hk hck hlast
    cases k with
    | zero =>
      have hr : idToIndexAux rest (i + 1) s = none := by
        refine idToIndexAux_none rest (i + 1) s (fun t ht => ?_)
        have := hlast (t + 1) (Nat.succ_pos t)
          (by simpa using Nat.succ_lt_succ ht)
        simpa [getD_succ] using this
      rw [getD_zero] at hck
      simp [idToIndexAux, hr, hck]
    | succ k =>
      have hr : idToIndexAux rest (i + 1) s = some (i + 1 + k) := by
        refine ih (i + 1) k s (by simpa using hk)
          (by simpa [getD_succ] using hck) (fun t ht htl => ?_)
        have := hlast (t + 1) (by omega) (by simpa using Nat.succ_lt_succ htl)
        simpa [getD_succ] using this
      simp only [idToIndexAux, hr]
      congr 1
      omega

theorem idToIndexAux_sound : ∀ (l : List RawItem) (i : Nat) (s : String)
    (p : Nat), idToIndexAux l i s = some p →
    ∃ t, t < l.length ∧ p = i + t ∧
      descCorrId (l.getD t defaultRaw) = some s := by
  intro l
  induction l with
  | nil => intro i s p h; simp [idToIndexAux] at h
  | cons d rest ih =>
    intro i s p h
    simp only [idToIndexAux] at h
    cases hr : idToIndexAux rest (i + 1) s with
    | some j =>
      rw [hr] at h
      obtain ⟨t, ht, hp, hc⟩ := ih (i + 1) s j hr
      have hj : j = p := by simpa using h
      exact ⟨t + 1, by simpa using Nat.succ_lt_succ ht, by omega,
        by simpa [getD_succ] using hc⟩
    | none =>
      rw [hr] at h
      by_cases hc : descCorrId d = some s
      · rw [if_pos hc] at h
        have hip : i = p := by simpa using h
        exact ⟨0, by simp, by omega, by simpa [getD_zero] using hc⟩
      · rw [if_neg hc] at h
        simp at h

theorem idToIndex_none (items : List RawItem) (s : String)
    (h : ∀ t, t < items.length →
      descCorrId (items.getD t defaultRaw) ≠ some s) :
    idToIndex items s = none :=
  idToIndexAux_none items 0 s h

theorem idToIndex_last (items : List RawItem) (k : Nat) (s : String)
    (hk : k < items.length)
    (hck : descCorrId (items.getD k defaultRaw) = some s)
    (hlast : ∀ t, k < t → t < items.length →
      descCorrId (items.getD t defaultRaw) ≠ some s) :
    idToIndex items s = some k := by
  have h := idToIndexAux_last items 0 k s hk hck hlast
  simpa [idToIndex] using h

theorem idToIndex_sound (items : List RawItem) (s : String) (p : Nat)
    (h : idToIndex items s = some p) :
    p < items.length ∧ descCorrId (items.getD p defaultRaw) = some s := by
  obtain ⟨t, ht, hp, hc⟩ := idToIndexAux_sound items 0 s p h
  have hpt : p = t := by omega
  subst hpt
  exact ⟨ht, hc⟩

/-! ## Pass 2: indentation -/

theorem applyIndent_length : ∀ (l : List ListItem) (pid cid : String),
    (applyIndent l pid cid).length = l.length := by
  intro l
  induction l with
  | nil => intro pid cid; rfl
  | cons it rest ih => intro pid cid; simp [applyIndent, ih]

theorem applyIndent_getD : ∀ (l : List ListItem) (pid cid : String) (j : Nat),
    j < l.length →
    (applyIndent l pid cid).getD j defaultItem =
      if (l.getD j defaultItem).id = cid
      then { l.getD j defaultItem with parentId := some pid }
      else l.getD j defaultItem := by
  intro l
  induction l with
  | nil => intro pid cid j hj; simp at hj
  | cons it rest ih =>
    intro pid cid j hj
    cases j with
    | zero => rfl
    | succ j =>
      simp only [applyIndent, getD_succ]
      exact ih pid cid j (by simpa using hj)

theorem pass2Step_length (items : List RawItem) (acc : List ListItem)
    (k : Nat) (d : RawItem) :
    (pass2Step items acc k d).length = acc.length := by
  rcases h1 : descSuperId d with _ | sid
  · simp [pass2Step, h1]
  · rcases h2 : idToIndex items sid with _ | p
    · simp [pass2Step, h1, h2]
    · simp [pass2Step, h1, h2, applyIndent_length]

theorem pass2Step_id (items : List RawItem) (acc : List ListItem) (k : Nat)
    (d : RawItem) (j : Nat) (hj : j < acc.length) :
    ((pass2Step items acc k d).getD j defaultItem).id =
      (acc.getD j defaultItem).id := by
  rcases h1 : descSuperId d with _ | sid
  · simp [pass2Step, h1]
  · rcases h2 : idToIndex items sid with _ | p
    · simp [pass2Step, h1, h2]
    · simp only [pass2Step, h1, h2,
        applyIndent_getD acc (mkItemId p) (mkItemId k) j hj]
      split <;> rfl

theorem pass2Step_getD (items : List RawItem) (acc : List ListItem) (k : Nat)
    (d : RawItem)
    (hid : ∀ j, j < acc.length → (acc.getD j defaultItem).id = mkItemId j)
    (j : Nat) (hj : j < acc.length) :
    (pass2Step items acc k d).getD j defaultItem =
      if j = k then
        match resolveTo items d with
        | some p =>
          { acc.getD j defaultItem with parentId := some (mkItemId p) }
        | none => acc.getD j defaultItem
      else acc.getD j defaultItem := by
  rcases h1 : descSuperId d with _ | sid
  · have hres : resolveTo items d = none := by simp [resolveTo, h1]
    rw [hres]
    simp only [pass2Step, h1]
    split <;> rfl
  · rcases h2 : idToIndex items sid with _ | p
    · have hres : resolveTo items d = none := by simp [resolveTo, h1, h2]
      rw [hres]
      simp only [pass2Step, h1, h2]
      split <;> rfl
    · have hres : resolveTo items d = some p := by simp [resolveTo, h1, h2]
      rw [hres]
      simp only [pass2Step, h1, h2]
      rw [applyIndent_getD acc (mkItemId p) (mkItemId k) j hj, hid j hj]
      by_cases hjk : j = k
      · subst hjk
        rw [if_pos rfl, if_pos rfl]
        simp only [hid j hj]
      · rw [if_neg (fun h => hjk (mkItemId_inj h)), if_neg hjk]

theorem pass2Go_length (items : List RawItem) :
    ∀ (ds : List RawItem) (k : Nat) (acc : List ListItem),
    (pass2Go items k ds acc).length = acc.length := by
  intro ds
  induction ds with
  | nil => intro k acc; rfl
  | cons d rest ih =>
    intro k acc
    show (pass2Go items (k + 1) rest (pass2Step items acc k d)).length = _
    rw [ih (k + 1) (pass2Step items acc k d), pass2Step_length]

theorem pass2Go_getD (items : List RawItem) :
    ∀ (ds : List RawItem) (k : Nat) (acc : List ListItem),
    ds = items.drop k → acc.length = items.length →
    (∀ j, j < items.length → (acc.getD j defaultItem).id = mkItemId j) →
    ∀ i, i < items.length →
    (pass2Go items k ds acc).getD i defaultItem =
      if k ≤ i then
        match resolveTo items (items.getD i defaultRaw) with
        | some p =>
          { acc.getD i defaultItem with parentId := some (mkItemId p) }
        | none => acc.getD i defaultItem
      else acc.getD i defaultItem := by
  intro ds
  induction ds with
  | nil =>
    intro k acc hds hlen hid i hi
    have hk : items.length ≤ k := List.drop_eq_nil_iff.mp hds.symm
    rw [if_neg (by omega)]
    rfl
  | cons d rest ih =>
    intro k acc hds hlen hid i hi
    obtain ⟨hk, hd, hrest⟩ := drop_cons_facts defaultRaw items k d rest hds.symm
    have hlen' : (pass2Step items acc k d).length = items.length := by
      rw [pass2Step_length, hlen]
    have hid2 : ∀ j, j < acc.length →
        (acc.getD j defaultItem).id = mkItemId j := by
      intro j hj
      exact hid j (by omega)
    have hid' : ∀ j, j < items.length →
        ((pass2Step items acc k d).getD j defaultItem).id = mkItemId j := by
      intro j hj
      rw [pass2Step_id items acc k d j (by omega)]
      exact hid j hj
    have hmain := ih (k + 1) (pass2Step items acc k d) hrest.symm hlen' hid' i hi
    show (pass2Go items (k + 1) rest (pass2Step items acc k d)).getD i
        defaultItem = _
    rw [hmain]
    have hstep := pass2Step_getD items acc k d hid2 i (by omega)
    rcases Nat.lt_trichotomy i k with hik | hik | hik
    · rw [if_neg (by omega), if_neg (by omega), hstep, if_neg (by omega)]
    · subst hik
      rw [if_neg (by omega), if_pos (Nat.le_refl i), hstep, if_pos rfl, hd]
    · rw [if_pos (by omega), if_pos (by omega)]
      have hacc : (pass2Step items acc k d).getD i defaultItem =
          acc.getD i defaultItem := by
        rw [hstep, if_neg (by omega)]
      rw [hacc]

/-! ## The closed form of the list builder -/

theorem build_length (items : List RawItem) (base : Int) :
    (build_list_items items base).length = items.length := by
  unfold build_list_items
  rw [pass2Go_length, pass1Aux_length]

theorem build_getD (items : List RawItem) (base : Int) (i : Nat)
    (hi : i < items.length) :
    (build_list_items items base).getD i defaultItem =
      { id := mkItemId i, text := descText (items.getD i defaultRaw),
        checked := descChecked (items.getD i defaultRaw),
        sort := base - SORT_DELTA * (i : Int),
        parentId := (resolveTo items (items.getD i defaultRaw)).map mkItemId,
        deleted := false } := by
  unfold build_list_items
  have hlen : (pass1Aux items 0 base).length = items.length :=
    pass1Aux_length items 0 base
  have hid : ∀ j, j < items.length →
      ((pass1Aux items 0 base).getD j defaultItem).id = mkItemId j := by
    intro j hj
    rw [pass1Aux_getD items 0 base j hj]
    simp
  have h := pass2Go_getD items items 0 (pass1Aux items 0 base) (by simp) hlen
    hid i hi
  rw [h, if_pos (Nat.zero_le i), pass1Aux_getD items 0 base i hi]
  cases hres : resolveTo items (items.getD i defaultRaw) with
  | some p => simp
  | none => simp

/-! ## Claim C4: strictly decreasing sort keys -/

/-- C4: within one create_list call the sort key of the item created at
descriptor index i is the random base minus SORT_DELTA times i, so the keys
are strictly decreasing in descriptor order and no two items of the call share
a sort key. -/
theorem create_list_sort_keys (items : List RawItem) (base : Int) (i j : Nat)
    (hi : i < items.length) (hj : j < items.length) (hij : i < j) :
    ((build_list_items items base).getD i defaultItem).sort
      = base - SORT_DELTA * (i : Int) ∧
    ((build_list_items items base).getD j defaultItem).sort
      < ((build_list_items items base).getD i defaultItem).sort := by
  rw [build_getD items base i hi, build_getD items base j hj]
  refine ⟨rfl, ?_⟩
  show base - SORT_DELTA * (j : Int) < base - SORT_DELTA * (i : Int)
  simp only [SORT_DELTA]
  omega

/-- Witness for C4 at a concrete two-descriptor batch. -/
theorem create_list_sort_keys_witness :
    (0 : Nat) < ([RawItem.str "a", RawItem.str "b"] : List RawItem).length ∧
    (1 : Nat) < ([RawItem.str "a", RawItem.str "b"] : List RawItem).length ∧
    (0 : Nat) < 1 ∧
    (((build_list_items [RawItem.str "a", RawItem.str "b"] 0).getD 0
        defaultItem).sort = 0 - SORT_DELTA * ((0 : Nat) : Int) ∧
     ((build_list_items [RawItem.str "a", RawItem.str "b"] 0).getD 1
        defaultItem).sort
       < ((build_list_items [RawItem.str "a", RawItem.str "b"] 0).getD 0
        defaultItem).sort) :=
  ⟨by decide, by decide, by decide,
    create_list_sort_keys [RawItem.str "a", RawItem.str "b"] 0 0 1 (by decide)
      (by decide) (by decide)⟩

/-! ## Claim C2: duplicate correlation ids -/

/-- C2 counterexample: with two descriptors both carrying correlation id a and
a third descriptor whose parent correlation id is a, the child is indented
under the item created for the SECOND occurrence (index 1), not the first
(index 0): the id_to_index dict is overwritten at each occurrence, so the last
occurrence wins. -/
theorem create_list_duplicate_cx :
    ((build_list_items
        [RawItem.dict (some "p1") none (some "a") none,
         RawItem.dict (some "p2") none (some "a") none,
         RawItem.dict (some "c") none none (some "a")] 0).getD 2
      defaultItem).parentId = some (mkItemId 1) ∧
    mkItemId 1 ≠ mkItemId 0 := by
  refine ⟨by decide, by decide⟩

/-- C2 amended: when several descriptors of the batch carry the same
correlation id, a descriptor whose parent correlation id equals that id is
indented under the item created for the LAST occurrence of that id. -/
theorem create_list_duplicate_last_wins (items : List RawItem) (base : Int)
    (i j k : Nat) (a : String) (hi : i < items.length) (hjk : j < k)
    (hk : k < items.length)
    (hcj : descCorrId (items.getD j defaultRaw) = some a)
    (hck : descCorrId (items.getD k defaultRaw) = some a)
    (hlast : ∀ m, k < m → m < items.length →
      descCorrId (items.getD m defaultRaw) ≠ some a)
    (hsup : descSuperId (items.getD i defaultRaw) = some a) :
    ((build_list_items items base).getD i defaultItem).parentId
      = some (mkItemId k) := by
  rw [build_getD items base i hi]
  have hidx : idToIndex items a = some k := idToIndex_last items k a hk hck hlast
  show (resolveTo items (items.getD i defaultRaw)).map mkItemId
    = some (mkItemId k)
  simp only [resolveTo, hsup, Option.some_bind, hidx, Option.map_some']

/-- Witness for the amended C2 at the concrete batch of the counterexample. -/
theorem create_list_duplicate_last_wins_witness :
    (2 : Nat) < ([RawItem.dict (some "p1") none (some "a") none,
      RawItem.dict (some "p2") none (some "a") none,
      RawItem.dict (some "c") none none (some "a")] : List RawItem).length ∧
    ((build_list_items
        [RawItem.dict (some "p1") none (some "a") none,
         RawItem.dict (some "p2") none (some "a") none,
         RawItem.dict (some "c") none none (some "a")] 0).getD 2
      defaultItem).parentId = some (mkItemId 1) := by
  refine ⟨by decide, ?_⟩
  refine create_list_duplicate_last_wins _ 0 2 0 1 "a" (by decide) (by decide)
    (by decide) (by decide) (by decide) ?_ (by decide)
  intro m h1 h2 hc
  have hm : m = 2 := by
    simp only [List.length_cons, List.length_nil] at h2
    omega
  subst hm
  revert hc
  decide

/-! ## Claim C3: unresolvable parent references -/

/-- C3 counterexample: a descriptor whose parent correlation id is its own
correlation id is NOT silently skipped: the lookup resolves to the descriptor
itself and the indent call is made, setting the parent of the created item to
its own id. -/
theorem create_list_selfref_cx :
    (List.getD
      (build_list_items [RawItem.dict (some "a") none (some "x") (some "x")] 0)
      0 defaultItem).parentId = some (mkItemId 0) ∧
    (List.getD
      (build_list_items [RawItem.dict (some "a") none (some "x") (some "x")] 0)
      0 defaultItem).parentId ≠ none := by
  refine ⟨by decide, by decide⟩

/-- C3 amended: a parent correlation id carried by no descriptor of the batch
is silently skipped, the item staying at top level with no parent; but a
self-reference is resolved like any other id: when the descriptor's own
correlation id is the last occurrence of that id in the batch, the item is
indented under itself. -/
theorem create_list_unresolved_refs (items : List RawItem) (base : Int)
    (i : Nat) (sid : String) (hi : i < items.length)
    (hsup : descSuperId (items.getD i defaultRaw) = some sid) :
    ((∀ t, t < items.length →
        descCorrId (items.getD t defaultRaw) ≠ some sid) →
      ((build_list_items items base).getD i defaultItem).parentId = none) ∧
    ((descCorrId (items.getD i defaultRaw) = some sid ∧
      ∀ t, i < t → t < items.length →
        descCorrId (items.getD t defaultRaw) ≠ some sid) →
      ((build_list_items items base).getD i defaultItem).parentId
        = some (mkItemId i)) := by
  constructor
  · intro hun
    rw [build_getD items base i hi]
    have hidx := idToIndex_none items sid hun
    show (resolveTo items (items.getD i defaultRaw)).map mkItemId = none
    simp only [resolveTo, hsup, Option.some_bind, hidx, Option.map_none']
  · rintro ⟨hself, hlast⟩
    rw [build_getD items base i hi]
    have hidx := idToIndex_last items i sid hi hself hlast
    show (resolveTo items (items.getD i defaultRaw)).map mkItemId
      = some (mkItemId i)
    simp only [resolveTo, hsup, Option.some_bind, hidx, Option.map_some']

/-- Witness for the amended C3 at the concrete self-referencing batch. -/
theorem create_list_unresolved_refs_witness :
    (0 : Nat) < ([RawItem.dict (some "a") none (some "x") (some "x")] :
      List RawItem).length ∧
    descSuperId (([RawItem.dict (some "a") none (some "x") (some "x")] :
      List RawItem).getD 0 defaultRaw) = some "x" ∧
    (((∀ t, t < ([RawItem.dict (some "a") none (some "x") (some "x")] :
          List RawItem).length →
        descCorrId (([RawItem.dict (some "a") none (some "x") (some "x")] :
          List RawItem).getD t defaultRaw) ≠ some "x") →
      ((build_list_items [RawItem.dict (some "a") none (some "x") (some "x")]
          0).getD 0 defaultItem).parentId = none) ∧
     ((descCorrId (([RawItem.dict (some "a") none (some "x") (some "x")] :
          List RawItem).getD 0 defaultRaw) = some "x" ∧
      ∀ t, 0 < t → t < ([RawItem.dict (some "a") none (some "x") (some "x")] :
          List RawItem).length →
        descCorrId (([RawItem.dict (some "a") none (some "x") (some "x")] :
          List RawItem).getD t defaultRaw) ≠ some "x") →
      ((build_list_items [RawItem.dict (some "a") none (some "x") (some "x")]
          0).getD 0 defaultItem).parentId = some (mkItemId 0))) :=
  ⟨by decide, by decide,
    create_list_unresolved_refs
      [RawItem.dict (some "a") none (some "x") (some "x")] 0 0 "x" (by decide)
      (by decide)⟩

/-! ## Handler-level helper lemmas -/

theorem ensureLabel_syncError (st : Keep) :
    (ensureLabel st).syncError = st.syncError := by
  unfold ensureLabel
  split <;> rfl

theorem keepSync_ok (st : Keep) (h : st.syncError = none) :
    keepSync st = Except.ok { st with syncCount := st.syncCount + 1 } := by
  unfold keepSync
  rw [h]

theorem keepSync_err (st : Keep) (e : String) (h : st.syncError = some e) :
    keepSync st = Except.error e := by
  unfold keepSync
  rw [h]

theorem serialize_note_ne_envelope (n : Note) (msg : String) :
    serialize_note n ≠ errorEnvelope msg := by
  unfold serialize_note errorEnvelope
  intro h
  cases hn : n.isList
  · rw [hn] at h
    simp at h
  · rw [hn] at h
    simp at h

theorem goFind_id : ∀ (l : List Note) (i : String) (n : Note),
    goFind l i = some n → n.id = i := by
  intro l
  induction l with
  | nil => intro i n h; simp [goFind] at h
  | cons m rest ih =>
    intro i n h
    by_cases hm : m.id = i
    · rw [goFind, if_pos hm] at h
      cases h
      exact hm
    · rw [goFind, if_neg hm] at h
      exact ih i n h

theorem goFind_setNote : ∀ (l : List Note) (n0 n2 : Note) (i : String),
    n2.id = i → goFind l i = some n0 →
    goFind (setNote l n2) i = some n2 := by
  intro l
  induction l with
  | nil => intro n0 n2 i h1 h2; simp [goFind] at h2
  | cons n rest ih =>
    intro n0 n2 i h1 h2
    by_cases hn : n.id = n2.id
    · rw [setNote, if_pos hn, goFind, if_pos h1]
    · have hni : n.id ≠ i := by rw [← h1]; exact hn
      rw [goFind, if_neg hni] at h2
      rw [setNote, if_neg hn, goFind, if_neg hni]
      exact ih n0 n2 i h1 h2

theorem findItem_eq_none (l : List ListItem) (iid : String)
    (h : ∀ it ∈ l, it.id ≠ iid) : findItem l iid = none := by
  induction l with
  | nil => rfl
  | cons it rest ih =>
    rw [findItem, if_neg (h it (List.mem_cons_self it rest))]
    exact ih (fun x hx => h x (List.mem_cons_of_mem it hx))

theorem updFirstItem_length (iid : String) (f : ListItem → ListItem) :
    ∀ (l : List ListItem), (updFirstItem l iid f).length = l.length := by
  intro l
  induction l with
  | nil => rfl
  | cons it rest ih =>
    rw [updFirstItem]
    split
    · simp
    · simp [ih]

theorem updFirstItem_getD_ne (iid : String) (f : ListItem → ListItem) :
    ∀ (l : List ListItem) (j : Nat), j < l.length →
    (l.getD j defaultItem).id ≠ iid →
    (updFirstItem l iid f).getD j defaultItem = l.getD j defaultItem := by
  intro l
  induction l with
  | nil => intro j hj; simp at hj
  | cons it rest ih =>
    intro j hj hne
    by_cases hit : it.id = iid
    · rw [updFirstItem, if_pos hit]
      cases j with
      | zero => exact absurd hit (by simpa [getD_zero] using hne)
      | succ j => rfl
    · rw [updFirstItem, if_neg hit]
      cases j with
      | zero => rfl
      | succ j =>
        rw [getD_succ, getD_succ]
        exact ih j (by simpa using hj) (by simpa [getD_succ] using hne)

theorem updFirstItem_getD_eq (iid : String) (f : ListItem → ListItem) :
    ∀ (l : List ListItem), (l.map (fun it => it.id)).Nodup →
    ∀ (j : Nat), j < l.length → (l.getD j defaultItem).id = iid →
    (updFirstItem l iid f).getD j defaultItem = f (l.getD j defaultItem) := by
  intro l
  induction l with
  | nil => intro _ j hj; simp at hj
  | cons it rest ih =>
    intro hnd j hj heq
    rw [List.map_cons, List.nodup_cons] at hnd
    have hnd1 : it.id ∉ rest.map (fun x => x.id) := hnd.1
    have hnd2 : (rest.map (fun x => x.id)).Nodup := hnd.2
    by_cases hit : it.id = iid
    · rw [updFirstItem, if_pos hit]
      cases j with
      | zero => rfl
      | succ j =>
        exfalso
        rw [getD_succ] at heq
        have hmem : rest.getD j defaultItem ∈ rest :=
          getD_mem rest defaultItem j (by simpa using hj)
        have : (rest.getD j defaultItem).id ∈ rest.map (fun x => x.id) :=
          List.mem_map_of_mem (fun x => x.id) hmem
        rw [heq, ← hit] at this
        exact hnd1 this
    · rw [updFirstItem, if_neg hit]
      cases j with
      | zero => exact absurd (by simpa [getD_zero] using heq) hit
      | succ j =>
        rw [getD_succ, getD_succ]
        exact ih hnd2 j (by simpa using hj) (by simpa [getD_succ] using heq)

/-! ## Claim C9: non-dict entries -/

/-- C9: a non-dict entry of the items argument becomes an unchecked item whose
text is the string form of the entry; it receives a sort key like any other
item, is never indented, and never serves as a parent item during hierarchy
resolution. -/
theorem create_list_string_entry (items : List RawItem) (base : Int) (i : Nat)
    (s : String) (hi : i < items.length)
    (hstr : items.getD i defaultRaw = RawItem.str s) :
    ((build_list_items items base).getD i defaultItem).text = s ∧
    ((build_list_items items base).getD i defaultItem).checked = false ∧
    ((build_list_items items base).getD i defaultItem).sort
      = base - SORT_DELTA * (i : Int) ∧
    ((build_list_items items base).getD i defaultItem).parentId = none ∧
    ∀ j, j < items.length →
      ((build_list_items items base).getD j defaultItem).parentId
        ≠ some (mkItemId i) := by
  have hb := build_getD items base i hi
  refine ⟨?_, ?_, ?_, ?_, ?_⟩
  · rw [hb, hstr]
    rfl
  · rw [hb, hstr]
    rfl
  · rw [hb]
  · rw [hb, hstr]
    simp [resolveTo, descSuperId]
  · intro j hj hcontra
    rw [build_getD items base j hj] at hcontra
    have hc2 : (resolveTo items (items.getD j defaultRaw)).map mkItemId
        = some (mkItemId i) := hcontra
    rcases ho : resolveTo items (items.getD j defaultRaw) with _ | p
    · rw [ho] at hc2
      simp at hc2
    · rw [ho] at hc2
      have hp : p = i := mkItemId_inj (by simpa using hc2)
      subst hp
      unfold resolveTo at ho
      rcases hs2 : descSuperId (items.getD j defaultRaw) with _ | sid
      · rw [hs2] at ho
        simp at ho
      · rw [hs2] at ho
        simp only [Option.some_bind] at ho
        have hcorr := (idToIndex_sound items sid p ho).2
        rw [hstr] at hcorr
        simp [descCorrId] at hcorr

/-- Witness for C9 at a concrete batch with one dict and one string entry. -/
theorem create_list_string_entry_witness :
    (1 : Nat) < ([RawItem.dict (some "x") none (some "a") none,
      RawItem.str "hello"] : List RawItem).length ∧
    ([RawItem.dict (some "x") none (some "a") none, RawItem.str "hello"] :
      List RawItem).getD 1 defaultRaw = RawItem.str "hello" ∧
    (((build_list_items [RawItem.dict (some "x") none (some "a") none,
        RawItem.str "hello"] 5).getD 1 defaultItem).text = "hello" ∧
     ((build_list_items [RawItem.dict (some "x") none (some "a") none,
        RawItem.str "hello"] 5).getD 1 defaultItem).checked = false ∧
     ((build_list_items [RawItem.dict (some "x") none (some "a") none,
        RawItem.str "hello"] 5).getD 1 defaultItem).sort
        = 5 - SORT_DELTA * ((1 : Nat) : Int) ∧
     ((build_list_items [RawItem.dict (some "x") none (some "a") none,
        RawItem.str "hello"] 5).getD 1 defaultItem).parentId = none ∧
     ∀ j, j < ([RawItem.dict (some "x") none (some "a") none,
        RawItem.str "hello"] : List RawItem).length →
       ((build_list_items [RawItem.dict (some "x") none (some "a") none,
          RawItem.str "hello"] 5).getD j defaultItem).parentId
         ≠ some (mkItemId 1)) :=
  ⟨by decide, by decide,
    create_list_string_entry
      [RawItem.dict (some "x") none (some "a") none, RawItem.str "hello"] 5 1
      "hello" (by decide) (by decide)⟩

/-! ## Claim C8: find filters archived and trashed notes -/

/-- C8: the find tool invokes the client search with archived and trashed both
false, so its result array is the serialization of a list of notes none of
which is archived or trashed. -/
theorem find_only_active (st : Keep) (q : String) :
    ∃ ns : List Note, find st q = JVal.arr (ns.map serialize_note) ∧
      ∀ n ∈ ns, n.archived = false ∧ n.trashed = false := by
  refine ⟨keepFind st q false false, rfl, ?_⟩
  intro n hn
  simp only [keepFind] at hn
  have hp := List.of_mem_filter hn
  simp only [Bool.and_eq_true, beq_iff_eq] at hp
  exact ⟨hp.1.2, hp.2⟩

/-! ## Claim C5: update_note forbidden path -/

/-- C5: on a note lacking the sentinel label while unsafe mode is off,
update_note fails with the Forbidden ValueError and returns the client state
unchanged: no field of the note is assigned and no synchronization call is
made. -/
theorem update_note_forbidden (st : Keep) (nid : String) (note : Note)
    (t x : Option String) (hget : keepGet st nid = some note)
    (hoff : st.unsafeMode = false)
    (hlab : note.labels.contains sentinel = false) :
    update_note st nid t x = (st, Except.error (msgNoteForbidden nid)) := by
  have hcm : can_modify_note st.unsafeMode note = false := by
    unfold can_modify_note
    rw [hoff, hlab]
    rfl
  simp [update_note, hget, hcm]

/-- A concrete client state whose single note lacks the sentinel label, for
the C5 witness. -/
def w5note : Note :=
  { id := "N1", title := "t", text := "x", pinned := false, color := "DEFAULT",
    labels := [], archived := false, trashed := false, isList := false,
    items := [], deleted := false }

/-- Client state holding w5note with unsafe mode off. -/
def w5keep : Keep :=
  { notes := [w5note], labelNames := [], unsafeMode := false, syncError := none,
    syncCount := 0, nextId := 0 }

/-- Witness for C5 at the concrete state w5keep. -/
theorem update_note_forbidden_witness :
    keepGet w5keep "N1" = some w5note ∧
    w5keep.unsafeMode = false ∧
    w5note.labels.contains sentinel = false ∧
    update_note w5keep "N1" (some "new") none
      = (w5keep, Except.error (msgNoteForbidden "N1")) :=
  ⟨by decide, by decide, by decide,
    update_note_forbidden w5keep "N1" w5note (some "new") none (by decide)
      (by decide) (by decide)⟩

/-! ## Claim C1: failure envelope policy -/

/-- The empty client state. -/
def emptyKeep : Keep :=
  { notes := [], labelNames := [], unsafeMode := false, syncError := none,
    syncCount := 0, nextId := 0 }

/-- C1 counterexample: update_note on an unknown note id raises the NotFound
ValueError to its caller (the error constructor) instead of returning a JSON
error envelope value, contradicting the claim that every handler converts
every failure into the envelope. -/
theorem update_note_raises_cx :
    update_note emptyKeep "x" none none
      = (emptyKeep, Except.error (msgNoteNotFound "x")) ∧
    ∀ msg, (Except.error (msgNoteNotFound "x") : Except String JVal)
      ≠ Except.ok (errorEnvelope msg) := by
  refine ⟨rfl, ?_⟩
  intro msg h
  cases h

/-- C1 amended: only find, create_note and create_list convert failures into
the JSON error envelope; update_note, delete_note, add_list_item,
update_list_item and delete_list_item raise their ValueErrors (and propagate
upstream failures) to the transport layer instead. -/
theorem tool_failure_policy (st : Keep) (nid e : String)
    (hget : keepGet st nid = none) (hsync : st.syncError = some e) :
    (update_note st nid none none).2 = Except.error (msgNoteNotFound nid) ∧
    (delete_note st nid).2 = Except.error (msgNoteNotFound nid) ∧
    (add_list_item st nid "x" false).2
      = Except.error (msgListNotFound nid) ∧
    (update_list_item st nid "y" none none).2
      = Except.error (msgListNotFound nid) ∧
    (delete_list_item st nid "y").2 = Except.error (msgListNotFound nid) ∧
    (create_note st none none).2 = errorEnvelope (errTag "create_note" e) ∧
    (create_list st none [] 0).2 = errorEnvelope (errTag "create_list" e) ∧
    ∃ ns : List JVal, find st "" = JVal.arr ns := by
  refine ⟨?_, ?_, ?_, ?_, ?_, ?_, ?_, ⟨_, rfl⟩⟩
  · simp [update_note, hget]
  · simp [delete_note, hget]
  · simp [add_list_item, hget]
  · simp [update_list_item, hget]
  · simp [delete_list_item, hget]
  · simp only [create_note]
    rw [keepSync_err _ e (by rw [ensureLabel_syncError]; exact hsync)]
  · simp only [create_list]
    rw [keepSync_err _ e (by rw [ensureLabel_syncError]; exact hsync)]

/-- Client state with a pending upstream synchronization failure, for the C1
witness. -/
def syncFailKeep : Keep :=
  { notes := [], labelNames := [], unsafeMode := false,
    syncError := some "boom", syncCount := 0, nextId := 0 }

/-- Witness for the amended C1 at the concrete state syncFailKeep. -/
theorem tool_failure_policy_witness :
    keepGet syncFailKeep "x" = none ∧
    syncFailKeep.syncError = some "boom" ∧
    ((update_note syncFailKeep "x" none none).2
        = Except.error (msgNoteNotFound "x") ∧
     (delete_note syncFailKeep "x").2 = Except.error (msgNoteNotFound "x") ∧
     (add_list_item syncFailKeep "x" "x" false).2
        = Except.error (msgListNotFound "x") ∧
     (update_list_item syncFailKeep "x" "y" none none).2
        = Except.error (msgListNotFound "x") ∧
     (delete_list_item syncFailKeep "x" "y").2
        = Except.error (msgListNotFound "x") ∧
     (create_note syncFailKeep none none).2
        = errorEnvelope (errTag "create_note" "boom") ∧
     (create_list syncFailKeep none [] 0).2
        = errorEnvelope (errTag "create_list" "boom") ∧
     ∃ ns : List JVal, find syncFailKeep "" = JVal.arr ns) :=
  ⟨by decide, by decide,
    tool_failure_policy syncFailKeep "x" "boom" (by decide) (by decide)⟩

/-! ## Claim C7: delete_list_item on an unknown item id -/

/-- A concrete modifiable checklist note without the sentinel label, for the
C7 counterexample. -/
def cx7note : Note :=
  { id := "L", title := "", text := "", pinned := false, color := "DEFAULT",
    labels := [], archived := false, trashed := false, isList := true,
    items := [], deleted := false }

/-- Client state holding cx7note with unsafe mode off. -/
def cx7keep : Keep :=
  { notes := [cx7note], labelNames := [], unsafeMode := false,
    syncError := none, syncCount := 0, nextId := 0 }

/-- C7 counterexample: on an existing checklist note that lacks the sentinel
label (unsafe mode off), delete_list_item with an unknown item id fails with
the Forbidden message naming the list, not with the NotFound message naming
the item: the claim does not hold for every existing checklist note. -/
theorem delete_list_item_forbidden_cx :
    delete_list_item cx7keep "L" "zzz"
      = (cx7keep, Except.error (msgListForbidden "L")) ∧
    msgListForbidden "L" ≠ msgItemNotFound "zzz" "L" := by
  refine ⟨rfl, by decide⟩

/-- C7 amended: on an existing MODIFIABLE checklist note (sentinel label
present or unsafe mode on), delete_list_item with an item id matching none of
the items fails with the NotFound ValueError naming the item id and returns
the client state unchanged: no item is deleted and no synchronization call is
made. -/
theorem delete_list_item_notfound (st : Keep) (lid iid : String) (note : Note)
    (hget : keepGet st lid = some note) (hlist : note.isList = true)
    (hmod : can_modify_note st.unsafeMode note = true)
    (hitem : ∀ it ∈ note.items, it.id ≠ iid) :
    delete_list_item st lid iid
      = (st, Except.error (msgItemNotFound iid lid)) := by
  have hfind : findItem note.items iid = none :=
    findItem_eq_none note.items iid hitem
  simp [delete_list_item, hget, hlist, hmod, hfind]

/-- A concrete item for the C7 witness. -/
def w7item : ListItem :=
  { id := "I1", text := "milk", checked := false, sort := 0, parentId := none,
    deleted := false }

/-- A concrete sentinel-labelled checklist for the C7 witness. -/
def w7note : Note :=
  { id := "L2", title := "", text := "", pinned := false, color := "DEFAULT",
    labels := ["keep-mcp"], archived := false, trashed := false, isList := true,
    items := [w7item], deleted := false }

/-- Client state holding w7note. -/
def w7keep : Keep :=
  { notes := [w7note], labelNames := ["keep-mcp"], unsafeMode := false,
    syncError := none, syncCount := 0, nextId := 0 }

/-- Witness for the amended C7 at the concrete state w7keep. -/
theorem delete_list_item_notfound_witness :
    keepGet w7keep "L2" = some w7note ∧
    w7note.isList = true ∧
    can_modify_note w7keep.unsafeMode w7note = true ∧
    (∀ it ∈ w7note.items, it.id ≠ "nope") ∧
    delete_list_item w7keep "L2" "nope"
      = (w7keep, Except.error (msgItemNotFound "nope" "L2")) :=
  ⟨by decide, by decide, by decide, by decide,
    delete_list_item_notfound w7keep "L2" "nope" w7note (by decide) (by decide)
      (by decide) (by decide)⟩

/-! ## Claim C6: parent reference to a nonexistent id -/

/-- C6: a descriptor whose parent correlation id belongs to no descriptor of
the batch yields a flat item: no parent is set, its serialized record carries a
null parent id, and the create_list call still succeeds (its result is never
the error envelope when no upstream failure is pending). -/
theorem create_list_unknown_parent (st : Keep) (title : Option String)
    (items : List RawItem) (base : Int) (i : Nat) (sid : String)
    (hi : i < items.length)
    (hsup : descSuperId (items.getD i defaultRaw) = some sid)
    (hun : ∀ t, t < items.length →
      descCorrId (items.getD t defaultRaw) ≠ some sid)
    (hsync : st.syncError = none) :
    ((build_list_items items base).getD i defaultItem).parentId = none ∧
    serialize_item ((build_list_items items base).getD i defaultItem)
      = JVal.obj [("id", JVal.str (mkItemId i)),
          ("text", JVal.str (descText (items.getD i defaultRaw))),
          ("checked", JVal.bool (descChecked (items.getD i defaultRaw))),
          ("super_list_item_id", JVal.null)] ∧
    ∀ msg, (create_list st title items base).2 ≠ errorEnvelope msg := by
  have hidx := idToIndex_none items sid hun
  refine ⟨?_, ?_, ?_⟩
  · rw [build_getD items base i hi]
    show (resolveTo items (items.getD i defaultRaw)).map mkItemId = none
    simp only [resolveTo, hsup, Option.some_bind, hidx, Option.map_none']
  · rw [build_getD items base i hi]
    simp only [serialize_item, resolveTo, hsup, Option.some_bind, hidx,
      Option.map_none', optStr]
  · intro msg
    simp only [create_list]
    rw [keepSync_ok _ (by rw [ensureLabel_syncError]; exact hsync)]
    exact serialize_note_ne_envelope _ msg

/-- Witness for C6 at a one-descriptor batch referencing the unknown id
ghost. -/
theorem create_list_unknown_parent_witness :
    (0 : Nat) < ([RawItem.dict (some "solo") none none (some "ghost")] :
      List RawItem).length ∧
    descSuperId (([RawItem.dict (some "solo") none none (some "ghost")] :
      List RawItem).getD 0 defaultRaw) = some "ghost" ∧
    (∀ t, t < ([RawItem.dict (some "solo") none none (some "ghost")] :
        List RawItem).length →
      descCorrId (([RawItem.dict (some "solo") none none (some "ghost")] :
        List RawItem).getD t defaultRaw) ≠ some "ghost") ∧
    emptyKeep.syncError = none ∧
    (((build_list_items [RawItem.dict (some "solo") none none (some "ghost")]
        3).getD 0 defaultItem).parentId = none ∧
     serialize_item ((build_list_items
        [RawItem.dict (some "solo") none none (some "ghost")] 3).getD 0
        defaultItem)
       = JVal.obj [("id", JVal.str (mkItemId 0)),
           ("text", JVal.str (descText
             (([RawItem.dict (some "solo") none none (some "ghost")] :
               List RawItem).getD 0 defaultRaw))),
           ("checked", JVal.bool (descChecked
             (([RawItem.dict (some "solo") none none (some "ghost")] :
               List RawItem).getD 0 defaultRaw))),
           ("super_list_item_id", JVal.null)] ∧
     ∀ msg, (create_list emptyKeep (some "T")
        [RawItem.dict (some "solo") none none (some "ghost")] 3).2
          ≠ errorEnvelope msg) := by
  refine ⟨by decide, by decide, ?_, by decide, ?_⟩
  · intro m h1 hc
    have hm : m = 0 := by
      simp only [List.length_cons, List.length_nil] at h1
      omega
    subst hm
    revert hc
    decide
  · refine create_list_unknown_parent emptyKeep (some "T") _ 3 0 "ghost"
      (by decide) (by decide) ?_ (by decide)
    intro m h1 hc
    have hm : m = 0 := by
      simp only [List.length_cons, List.length_nil] at h1
      omega
    subst hm
    revert hc
    decide

/-! ## Claim C10: update_list_item frame conditions -/

/-- C10: update_list_item modifies only the target item and only its
explicitly supplied fields: a None text leaves the text unchanged, a None
checked flag leaves the checked flag unchanged, every other field of the
target item and every other item of the list are unchanged. -/
theorem update_list_item_frame (st : Keep) (lid iid : String) (note : Note)
    (t : Option String) (c : Option Bool)
    (hget : keepGet st lid = some note) (hlist : note.isList = true)
    (hmod : can_modify_note st.unsafeMode note = true)
    (hfound : findItem note.items iid ≠ none)
    (hnd : (note.items.map (fun it => it.id)).Nodup) :
    ∃ note2,
      keepGet (update_list_item st lid iid t c).1 lid = some note2 ∧
      note2.items.length = note.items.length ∧
      (∀ j, j < note.items.length →
        (note.items.getD j defaultItem).id ≠ iid →
        note2.items.getD j defaultItem = note.items.getD j defaultItem) ∧
      (∀ j, j < note.items.length →
        (note.items.getD j defaultItem).id = iid →
        note2.items.getD j defaultItem =
          { note.items.getD j defaultItem with
            text := t.getD (note.items.getD j defaultItem).text,
            checked := c.getD (note.items.getD j defaultItem).checked }) := by
  obtain ⟨it0, hit⟩ : ∃ it, findItem note.items iid = some it := by
    cases h : findItem note.items iid
    · exact absurd h hfound
    · exact ⟨_, rfl⟩
  refine ⟨{ note with items := updFirstItem note.items iid (applyItemUpd t c) },
    ?_, ?_, ?_, ?_⟩
  · have hnid : note.id = lid := goFind_id st.notes lid note hget
    have hnotes : (update_list_item st lid iid t c).1.notes
        = setNote st.notes
          { note with items := updFirstItem note.items iid (applyItemUpd t c) }
        := by
      simp only [update_list_item, hget, hlist, hmod, hit]
      rcases hse : st.syncError with _ | e
      · rw [keepSync_ok _ (by exact hse)]
        rfl
      · rw [keepSync_err _ e (by exact hse)]
        rfl
    show goFind (update_list_item st lid iid t c).1.notes lid = some _
    rw [hnotes]
    exact goFind_setNote st.notes note _ lid hnid hget
  · exact updFirstItem_length iid _ note.items
  · intro j hj hne
    exact updFirstItem_getD_ne iid _ note.items j hj hne
  · intro j hj heq
    exact updFirstItem_getD_eq iid _ note.items hnd j hj heq

/-- Concrete items for the C10 witness. -/
def w10a : ListItem :=
  { id := "I1", text := "milk", checked := false, sort := 5, parentId := none,
    deleted := false }

/-- Second concrete item for the C10 witness. -/
def w10b : ListItem :=
  { id := "I2", text := "eggs", checked := true, sort := 3, parentId := none,
    deleted := false }

/-- A concrete sentinel-labelled checklist with two items. -/
def w10note : Note :=
  { id := "L3", title := "", text := "", pinned := false, color := "DEFAULT",
    labels := ["keep-mcp"], archived := false, trashed := false, isList := true,
    items := [w10a, w10b], deleted := false }

/-- Client state holding w10note. -/
def w10keep : Keep :=
  { notes := [w10note], labelNames := ["keep-mcp"], unsafeMode := false,
    syncError := none, syncCount := 0, nextId := 0 }

/-- Witness for C10: updating only the checked flag of item I2 at the concrete
state w10keep. -/
theorem update_list_item_frame_witness :
    keepGet w10keep "L3" = some w10note ∧
    w10note.isList = true ∧
    can_modify_note w10keep.unsafeMode w10note = true ∧
    findItem w10note.items "I2" ≠ none ∧
    (w10note.items.map (fun it => it.id)).Nodup ∧
    ∃ note2,
      keepGet (update_list_item w10keep "L3" "I2" none (some false)).1 "L3"
        = some note2 ∧
      note2.items.length = w10note.items.length ∧
      (∀ j, j < w10note.items.length →
        (w10note.items.getD j defaultItem).id ≠ "I2" →
        note2.items.getD j defaultItem
          = w10note.items.getD j defaultItem) ∧
      (∀ j, j < w10note.items.length →
        (w10note.items.getD j defaultItem).id = "I2" →
        note2.items.getD j defaultItem =
          { w10note.items.getD j defaultItem with
            text := (none : Option String).getD
              (w10note.items.getD j defaultItem).text,
            checked := (some false).getD
              (w10note.items.getD j defaultItem).checked }) :=
  ⟨by decide, by decide, by decide, by decide, by decide,
    update_list_item_frame w10keep "L3" "I2" w10note none (some false)
      (by decide) (by decide) (by decide) (by decide) (by decide)⟩

end KeepMcp
